import Mathlib

/-!
Verification of the `vix::utils` Logger against its specification.

The definitions below are a shallow embedding of the C++ sources:
- `src/include/vix/utils/Logger.hpp` (Logger facade, encoders, level gate)
- `src/src/Logger.cpp` (parsing, context store, format switching)
- `src/include/vix/utils/ConsoleMutex.hpp` (banner coordination)

Pure C++ functions become Lean functions; the thread-local context store
becomes an explicit map from thread ids to contexts; the banner flag
becomes a transition system on `Bool`; the locking discipline of the
logging entry points becomes an explicit list of atomic console actions.
-/

namespace Vix

/-- Logging severity (Logger.hpp `enum class Level`), in declaration order. -/
inductive Level where
  | trace
  | debug
  | info
  | warn
  | error
  | critical
  | off
  deriving DecidableEq, Repr, Fintype

/-- Output format (Logger.hpp `enum class Format`). -/
inductive Format where
  | KV
  | JSON
  | JSON_PRETTY
  deriving DecidableEq, Repr, Fintype

/-- Numeric spdlog rank of a level, via `Logger::toSpdLevel`
(spdlog: trace=0, debug=1, info=2, warn=3, err=4, critical=5, off=6). -/
def spdRank : Level → Nat
  | .trace => 0
  | .debug => 1
  | .info => 2
  | .warn => 3
  | .error => 4
  | .critical => 5
  | .off => 6

/-- spdlog's `should_log`: the record level rank is at least the configured rank. -/
def should_log (cfg lvl : Level) : Bool := decide (spdRank cfg ≤ spdRank lvl)

/-- Whether `Logger::log` reaches the sink write: the early
`if (level == Level::OFF) return;` check, then `spd_->should_log`. -/
def logEmits (cfg lvl : Level) : Bool :=
  if lvl = Level.off then false
  else should_log cfg lvl

/-- C-locale `tolower` restricted to ASCII, as used by `lower_copy`. -/
def tolower (c : Char) : Char :=
  if 'A' ≤ c ∧ c ≤ 'Z' then Char.ofNat (c.toNat + 32) else c

/-- `lower_copy` from Logger.cpp: byte-wise lowercasing of the input. -/
def lower_copy (s : String) : String := String.mk (s.data.map tolower)

/-- `Logger::parseLevel` from Logger.cpp, branch for branch. -/
def parseLevel (s : String) : Level :=
  let v := lower_copy s
  if v = "off" ∨ v = "never" ∨ v = "none" ∨ v = "silent" ∨ v = "0" then Level.off
  else if v = "trace" then Level.trace
  else if v = "debug" then Level.debug
  else if v = "info" then Level.info
  else if v = "warn" ∨ v = "warning" then Level.warn
  else if v = "error" then Level.error
  else if v = "critical" ∨ v = "fatal" then Level.critical
  else Level.warn

/-- The level parser exactly as the claim words it: trace, debug, info,
warn, error, critical and fatal (as critical) map to their levels;
off, never, none, silent and 0 map to Off; every other string maps to Warn. -/
def parseLevelClaim (s : String) : Level :=
  let v := lower_copy s
  if v = "trace" then Level.trace
  else if v = "debug" then Level.debug
  else if v = "info" then Level.info
  else if v = "warn" then Level.warn
  else if v = "error" then Level.error
  else if v = "critical" then Level.critical
  else if v = "fatal" then Level.critical
  else if v = "off" ∨ v = "never" ∨ v = "none" ∨ v = "silent" ∨ v = "0" then Level.off
  else Level.warn

/-- `Logger::parseFormat` from Logger.cpp, branch for branch. -/
def parseFormat (s : String) : Format :=
  let v := lower_copy s
  if v = "json" then Format.JSON
  else if v = "json-pretty" ∨ v = "pretty-json" ∨ v = "json_pretty" then Format.JSON_PRETTY
  else Format.KV

/-- The format parser exactly as the claim words it. -/
def parseFormatClaim (s : String) : Format :=
  let v := lower_copy s
  if v = "json" then Format.JSON
  else if v = "json_pretty" ∨ v = "json-pretty" ∨ v = "pretty-json" then Format.JSON_PRETTY
  else Format.KV

/-- `Logger::parseLevelFromEnv`: the environment value is `none` when the
variable is unset; an empty string models `*raw == 0`. -/
def parseLevelFromEnv (env : Option String) (fallback : Level) : Level :=
  match env with
  | none => fallback
  | some raw => if raw = "" then fallback else parseLevel raw

/-- The declared default of `parseLevelFromEnv`'s `fallback` parameter
(`Level fallback = Level::WARN` in Logger.hpp). -/
def parseLevelFromEnvDefaultFallback : Level := Level.warn

/-- `Logger::setLevelFromEnv`: the level it installs, given the environment
value. The source passes `Level::Info` explicitly as the fallback. -/
def setLevelFromEnv (env : Option String) : Level :=
  parseLevelFromEnv env Level.info

/-- Per-thread logging context (Logger.hpp `struct Context`). The field
list carries the iteration order of the `unordered_map` snapshot. -/
structure Context where
  request_id : String
  module : String
  fields : List (String × String)
  deriving DecidableEq, Repr

/-- The default-constructed context: `Context() : request_id(), module(), fields()`. -/
def defaultContext : Context := ⟨"", "", []⟩

/-- The thread-local storage holding `Logger::tls_ctx_`, one slot per thread id. -/
def TLS : Type := Nat → Context

/-- Every thread's slot starts as the default-constructed context
(`thread_local Logger::Context Logger::tls_ctx_{}`). -/
def initialTLS : TLS := fun _ => defaultContext

/-- `Logger::setContext` executed by thread `t`: wholesale assignment
`tls_ctx_ = std::move(ctx)` of that thread's slot. -/
def setContext (t : Nat) (c : Context) (m : TLS) : TLS :=
  fun u => if u = t then c else m u

/-- `Logger::clearContext` executed by thread `t`: `tls_ctx_ = Logger::Context{}`. -/
def clearContext (t : Nat) (m : TLS) : TLS :=
  fun u => if u = t then defaultContext else m u

/-- `Logger::getContext` executed by thread `t`: returns a copy of `tls_ctx_`. -/
def getContext (t : Nat) (m : TLS) : Context := m t

/-- Banner-state operations (ConsoleMutex.hpp): `console_reset_banner`
writes `false`, `console_mark_banner_done` writes `true` and notifies all. -/
inductive BannerOp where
  | reset
  | mark
  deriving DecidableEq, Repr

/-- Effect of one banner operation on the `console_banner_done` flag. -/
def bannerStep (_done : Bool) : BannerOp → Bool
  | .reset => false
  | .mark => true

/-- The flag after a sequence of banner operations from a starting state. -/
def bannerRun (init : Bool) (ops : List BannerOp) : Bool :=
  ops.foldl bannerStep init

/-- Initial value of the flag: `static bool done = true;`. -/
def bannerInit : Bool := true

/-- `console_wait_banner`'s wait predicate: the waiter proceeds exactly
when `console_banner_done()` is true; otherwise it blocks on the condvar. -/
def waitProceeds (done : Bool) : Bool := done

/-- Atomic console-side actions a logging entry point performs, in program
order: waiting on the banner condvar, acquiring/releasing the process-wide
`console_mutex`, and the physical sink write. -/
inductive CAct where
  | waitBanner
  | lockConsole
  | unlockConsole
  | write
  deriving DecidableEq, Repr

/-- Console actions of `Logger::log` (Logger.hpp lines 282-307): under
console-sync it waits for the banner, then the `lock_guard` scope encloses
the `spd->log` write. -/
def logActs (sync : Bool) : List CAct :=
  if sync then [.waitBanner, .lockConsole, .write, .unlockConsole]
  else [.write]

/-- Console actions of `Logger::logModule` (Logger.hpp lines 319-351):
same locking discipline as `log`. -/
def logModuleActs (sync : Bool) : List CAct :=
  if sync then [.waitBanner, .lockConsole, .write, .unlockConsole]
  else [.write]

/-- Console actions of `Logger::logf` (Logger.hpp lines 441-481): under
console-sync it waits for the banner, but the `lock_guard` lives in the
inner block `{ std::lock_guard lk(console_mutex()); (void)lk; }`, which
closes before the format dispatch, so the `spd_->log` write runs after
the mutex has been released. -/
def logfActs (sync : Bool) : List CAct :=
  if sync then [.waitBanner, .lockConsole, .unlockConsole, .write]
  else [.write]

/-- Checks that every `write` occurs while the console-lock depth is positive. -/
def writesLockedFrom : Nat → List CAct → Bool
  | _, [] => true
  | d, .lockConsole :: r => writesLockedFrom (d + 1) r
  | d, .unlockConsole :: r => writesLockedFrom (d - 1) r
  | d, .write :: r => decide (0 < d) && writesLockedFrom d r
  | d, .waitBanner :: r => writesLockedFrom d r

/-- Every physical write happens while the console mutex is held. -/
def writesUnderConsoleLock (acts : List CAct) : Bool :=
  writesLockedFrom 0 acts

/-- Checks that a banner wait precedes every write. -/
def waitSeenBeforeWrites : Bool → List CAct → Bool
  | _, [] => true
  | _, .waitBanner :: r => waitSeenBeforeWrites true r
  | seen, .write :: r => seen && waitSeenBeforeWrites seen r
  | seen, .lockConsole :: r => waitSeenBeforeWrites seen r
  | seen, .unlockConsole :: r => waitSeenBeforeWrites seen r

/-- Every physical write is preceded by a `console_wait_banner` call. -/
def waitPrecedesWrites (acts : List CAct) : Bool :=
  waitSeenBeforeWrites false acts

/-- One sink record: level and rendered message. -/
abbrev Record : Type := Level × String

/-- A level-gated logging call appending to the sink output when it passes
the gate (the path taken by `log(Level::ERROR, "{}", msg)`). -/
def logCall (cfg lvl : Level) (msg : String) (out : List Record) : List Record :=
  if logEmits cfg lvl then out ++ [(lvl, msg)] else out

/-- `Logger::throwError(msg)`: logs `msg` through the ordinary ERROR-level
logging call, then throws `std::runtime_error(msg)`; the `Except` result
is the call's outcome, which is never a normal return. -/
def throwErrorCall (cfg : Level) (msg : String) (out : List Record) :
    List Record × Except String Unit :=
  (logCall cfg Level.error msg out, Except.error msg)

/-- `Logger::levelToString`: lowercase level name used by JSON output. -/
def levelToString : Level → String
  | .trace => "trace"
  | .debug => "debug"
  | .info => "info"
  | .warn => "warn"
  | .error => "error"
  | .critical => "critical"
  | .off => "off"

/-- The hex table `"0123456789abcdef"` indexed by `appendJsonEscaped`. -/
def hexDigit (n : Nat) : Char := "0123456789abcdef".data.getD n '0'

/-- Escaping of a single character: the `switch` body of
`Logger::appendJsonEscaped`. -/
def escapeChar (c : Char) : String :=
  if c = '\"' then "\\\""
  else if c = '\\' then "\\\\"
  else if c = '\x08' then "\\b"
  else if c = '\x0c' then "\\f"
  else if c = '\n' then "\\n"
  else if c = '\r' then "\\r"
  else if c = '\t' then "\\t"
  else if c.toNat < 0x20 then
    "\\u00" ++ String.mk [hexDigit (c.toNat / 16 % 16), hexDigit (c.toNat % 16)]
  else String.mk [c]

/-- `Logger::appendJsonEscaped`: appends the escaped characters to `out`. -/
def appendJsonEscaped (out : String) (s : String) : String :=
  s.data.foldl (fun acc c => acc ++ escapeChar c) out

/-- JSON escaping of a whole string. -/
def jsonEscape (s : String) : String := appendJsonEscaped "" s

/-- `Logger::appendJsonKey`: quoted escaped key followed by a colon. -/
def appendJsonKey (k : String) : String := "\"" ++ jsonEscape k ++ "\":"

/-- `Logger::appendJsonStringValue`: quoted escaped string value. -/
def appendJsonStringValue (v : String) : String := "\"" ++ jsonEscape v ++ "\""

/-- Renderable values handed to `logf` as kv pairs, following the
`if constexpr` dispatch of the C++ templates: booleans, integral numbers,
strings (`std::string`/`string_view`/`char*`), and the generic fallback
that is first rendered to text by `fmt::format("{}", v)`. -/
inductive JVal where
  | vbool (b : Bool)
  | vint (n : Int)
  | vstr (s : String)
  | vother (s : String)
  deriving DecidableEq, Repr

/-- `fmt::format("{}", v)`: the plain textual rendering used by the KV
encoder (and by the fallback branches of the JSON encoders). -/
def fmtText : JVal → String
  | .vbool b => if b then "true" else "false"
  | .vint n => toString n
  | .vstr s => s
  | .vother s => s

/-- `Logger::appendJsonValue`: booleans and numbers as unquoted JSON
primitives, strings escaped and quoted, other types formatted then quoted. -/
def appendJsonValue : JVal → String
  | .vbool b => if b then "true" else "false"
  | .vint n => toString n
  | .vstr s => appendJsonStringValue s
  | .vother s => appendJsonStringValue s

/-- One context-field chunk of `buildJsonLine`'s loop body:
`out += ","; appendJsonKey(out, k); appendJsonStringValue(out, v);`. -/
def jsonCtxField (kv : String × String) : String :=
  "," ++ appendJsonKey kv.1 ++ appendJsonStringValue kv.2

/-- One kv-pair chunk of `Logger::appendJsonKV`:
`out += ","; appendJsonKey(out, k); appendJsonValue(out, v);`. -/
def jsonKVItem (kv : String × JVal) : String :=
  "," ++ appendJsonKey kv.1 ++ appendJsonValue kv.2

/-- `Logger::buildJsonLine` (Logger.hpp lines 740-778). -/
def buildJsonLine (lvl : Level) (msg : String) (c : Context)
    (kvs : List (String × JVal)) : String :=
  let out := "\x7b" ++ appendJsonKey "level" ++ appendJsonStringValue (levelToString lvl)
      ++ "," ++ appendJsonKey "msg" ++ appendJsonStringValue msg
  let out := if c.request_id ≠ "" then out ++ jsonCtxField ("rid", c.request_id) else out
  let out := if c.module ≠ "" then out ++ jsonCtxField ("mod", c.module) else out
  let out := c.fields.foldl (fun o kv => o ++ jsonCtxField kv) out
  let out := kvs.foldl (fun o kv => o ++ jsonKVItem kv) out
  out ++ "\x7d"

/-- `Logger::appendKV`: ` key=value` per pair, values via `fmt::format`. -/
def appendKV (line : String) (kvs : List (String × JVal)) : String :=
  kvs.foldl (fun s kv => s ++ " " ++ kv.1 ++ "=" ++ fmtText kv.2) line

/-- The KV branch of `Logger::logf` (Logger.hpp lines 469-478): message,
kv pairs, then ` rid=`, ` mod=`, then the context fields. -/
def kvLine (msg : String) (c : Context) (kvs : List (String × JVal)) : String :=
  let line := appendKV msg kvs
  let line := if c.request_id ≠ "" then line ++ " rid=" ++ c.request_id else line
  let line := if c.module ≠ "" then line ++ " mod=" ++ c.module else line
  c.fields.foldl (fun l kv => l ++ " " ++ kv.1 ++ "=" ++ kv.2) line

/-- `Logger::ansi_wrap`: wrap `s` in a color code and a reset when `on`. -/
def ansi_wrap (code s : String) (en : Bool) : String :=
  if en then code ++ s ++ "\x1b[0m" else s

/-- Color helpers from Logger.hpp. -/
def c_key (s : String) (en : Bool) : String := ansi_wrap "\x1b[36m" s en

/-- Green: string values. -/
def c_str (s : String) (en : Bool) : String := ansi_wrap "\x1b[32m" s en

/-- Yellow: numbers. -/
def c_num (s : String) (en : Bool) : String := ansi_wrap "\x1b[33m" s en

/-- Magenta: booleans. -/
def c_bool (s : String) (en : Bool) : String := ansi_wrap "\x1b[35m" s en

/-- Gray: punctuation. -/
def c_punc (s : String) (en : Bool) : String := ansi_wrap "\x1b[90m" s en

/-- Blue accent. -/
def c_blue (s : String) (en : Bool) : String := ansi_wrap "\x1b[34m" s en

/-- Dim accent. -/
def c_dim (s : String) (en : Bool) : String := ansi_wrap "\x1b[2m" s en

/-- `Logger::c_http_status`: HTTP-status-banded coloring. -/
def c_http_status (n : Int) (en : Bool) : String :=
  let s := toString n
  if !en then s
  else if 200 ≤ n ∧ n < 300 then ansi_wrap "\x1b[32m" s true
  else if 300 ≤ n ∧ n < 400 then ansi_wrap "\x1b[36m" s true
  else if 400 ≤ n ∧ n < 500 then ansi_wrap "\x1b[33m" s true
  else if 500 ≤ n ∧ n < 600 then ansi_wrap "\x1b[31m" s true
  else ansi_wrap "\x1b[90m" s true

/-- `Logger::ends_with` (suffix test on strings). -/
def ends_with (s suf : String) : Bool := suf.data.isSuffixOf s.data

/-- One entry of `Logger::appendJsonPrettyKV`: indented colored key, `: `,
the value with field-name heuristics, then `,\n` — all through `c_*`. -/
def prettyKVItem (color : Bool) (kv : String × JVal) : String :=
  let valPart :=
    match kv.2 with
    | .vbool b => c_bool (if b then "true" else "false") color
    | .vint n =>
        if kv.1 = "status" then c_http_status n color
        else if kv.1 = "duration_ms" ∨ ends_with kv.1 "_ms" then
          c_dim (c_blue (toString n) color) color
        else c_num (toString n) color
    | .vstr s =>
        if kv.1 = "method" ∨ kv.1 = "path" then
          ansi_wrap "\x1b[36m" ("\"" ++ jsonEscape s ++ "\"") color
        else c_str ("\"" ++ jsonEscape s ++ "\"") color
    | .vother s => c_str ("\"" ++ jsonEscape s ++ "\"") color
  "  " ++ c_key ("\"" ++ kv.1 ++ "\"") color ++ c_punc ": " color
    ++ valPart ++ c_punc ",\n" color

/-- `Logger::appendJsonPrettyKV` over the whole pair list. -/
def appendJsonPrettyKV (out : String) (color : Bool)
    (kvs : List (String × JVal)) : String :=
  kvs.foldl (fun o kv => o ++ prettyKVItem color kv) out

/-- The `add_str` lambda of `Logger::buildJsonPretty`: an indented row for
a string-valued field (key unescaped, value escaped). -/
def prettyStrRow (color : Bool) (k v : String) : String :=
  "  " ++ c_key ("\"" ++ k ++ "\"") color ++ c_punc ": " color
    ++ c_str ("\"" ++ jsonEscape v ++ "\"") color ++ c_punc ",\n" color

/-- The trailing-comma removal of `buildJsonPretty`: if the accumulated
text ends in the two plain characters `,\n`, pop both and append `\n`. -/
def trimTrailingComma (out : String) : String :=
  if ends_with out ",\n" then String.mk (out.data.dropLast.dropLast) ++ "\n" else out

/-- `Logger::buildJsonPretty` (Logger.hpp lines 974-1038); `color` is the
value of `jsonColorsEnabled()` at the time of the call. -/
def buildJsonPretty (color : Bool) (lvl : Level) (msg : String) (c : Context)
    (kvs : List (String × JVal)) : String :=
  let out := c_punc "\x7b\n" color
  let out := out ++ prettyStrRow color "level" (levelToString lvl)
  let out := out ++ prettyStrRow color "msg" msg
  let out := if c.request_id ≠ "" then out ++ prettyStrRow color "rid" c.request_id else out
  let out := if c.module ≠ "" then out ++ prettyStrRow color "mod" c.module else out
  let out := c.fields.foldl (fun o kv => o ++ prettyStrRow color kv.1 kv.2) out
  let out := appendJsonPrettyKV out color kvs
  let out := trimTrailingComma out
  let out := out ++ c_punc "\x7d" color
  if color then out ++ "\x1b[0m" else out

/-- State machine removing ANSI escape sequences (`ESC ... m`); the flag
records whether the scanner is inside a sequence. -/
def stripAnsiGo : List Char → Bool → List Char
  | [], _ => []
  | c :: rest, true => if c = 'm' then stripAnsiGo rest false else stripAnsiGo rest true
  | c :: rest, false =>
      if c = '\x1b' then stripAnsiGo rest true else c :: stripAnsiGo rest false

/-- Remove every ANSI escape sequence from a string. -/
def stripAnsi (s : String) : String := String.mk (stripAnsiGo s.data false)

/-- The encoder `logf` dispatches to for a given format, with color
disabled for pretty JSON. -/
def encodeRecord (fmt : Format) (lvl : Level) (msg : String) (c : Context)
    (kvs : List (String × JVal)) : String :=
  match fmt with
  | .JSON => buildJsonLine lvl msg c kvs
  | .JSON_PRETTY => buildJsonPretty false lvl msg c kvs
  | .KV => kvLine msg c kvs

/-- The value encoding exactly as claim C3 words it: numeric and boolean
values as unquoted JSON primitives, strings JSON-escaped and quoted, other
value types as a quoted textual representation. -/
def jsonValSpec : JVal → String
  | .vbool b => if b then "true" else "false"
  | .vint n => toString n
  | .vstr s => "\"" ++ jsonEscape s ++ "\""
  | .vother s => "\"" ++ jsonEscape s ++ "\""

/-- One member of the JSON object as the claim describes it: JSON-escaped
quoted key, a colon, then the value encoding. -/
def jsonMemberSpec (k : String) (v : JVal) : String :=
  "\"" ++ jsonEscape k ++ "\":" ++ jsonValSpec v

/-- The members of the JSON object in the order claim C3 states: `level`,
`msg`, `rid` if the request id is non-empty, `mod` if the module is
non-empty, the context fields, then the kv pairs. -/
def jsonLineSpecEntries (lvl : Level) (msg : String) (c : Context)
    (kvs : List (String × JVal)) : List String :=
  jsonMemberSpec "level" (.vstr (levelToString lvl))
    :: jsonMemberSpec "msg" (.vstr msg)
    :: ((if c.request_id ≠ "" then [jsonMemberSpec "rid" (.vstr c.request_id)] else [])
      ++ (if c.module ≠ "" then [jsonMemberSpec "mod" (.vstr c.module)] else [])
      ++ c.fields.map (fun kv => jsonMemberSpec kv.1 (.vstr kv.2))
      ++ kvs.map (fun kv => jsonMemberSpec kv.1 kv.2))

/-- Comma-separated join of the object members. -/
def joinComma : List String → String
  | [] => ""
  | [x] => x
  | x :: y :: xs => x ++ "," ++ joinComma (y :: xs)

/-- The single-line JSON object as claim C3 describes it. -/
def jsonLineSpec (lvl : Level) (msg : String) (c : Context)
    (kvs : List (String × JVal)) : String :=
  "\x7b" ++ joinComma (jsonLineSpecEntries lvl msg c kvs) ++ "\x7d"

/-- Concatenation of a list of strings. -/
def sconcat (l : List String) : String := l.foldr (· ++ ·) ""

/-- Concatenation with a comma before every element. -/
def ccat (l : List String) : String := sconcat (l.map (fun e => "," ++ e))

theorem string_data_inj {a b : String} (h : a.data = b.data) : a = b := by
  cases a
  cases b
  exact congrArg String.mk h

theorem string_data_append (a b : String) : (a ++ b).data = a.data ++ b.data := rfl

theorem string_data_empty : ("" : String).data = [] := rfl

theorem strAppend_assoc (a b c : String) : a ++ b ++ c = a ++ (b ++ c) :=
  string_data_inj (by simp [string_data_append])

theorem strAppend_empty (a : String) : a ++ "" = a :=
  string_data_inj (by simp [string_data_append, string_data_empty])

theorem strEmpty_append (a : String) : "" ++ a = a :=
  string_data_inj (by simp [string_data_append, string_data_empty])

theorem sconcat_cons (x : String) (l : List String) :
    sconcat (x :: l) = x ++ sconcat l := rfl

theorem foldl_chunks {α : Type} (f : α → String) :
    ∀ (l : List α) (out : String),
      l.foldl (fun o x => o ++ f x) out = out ++ sconcat (l.map f) := by
  intro l
  induction l with
  | nil => intro out; simp [sconcat, strAppend_empty]
  | cons x xs ih =>
    intro out
    simp only [List.foldl_cons, List.map_cons, sconcat_cons]
    rw [ih (out ++ f x), strAppend_assoc]

theorem sconcat_append (l1 l2 : List String) :
    sconcat (l1 ++ l2) = sconcat l1 ++ sconcat l2 := by
  induction l1 with
  | nil => simp [sconcat, strEmpty_append]
  | cons x xs ih =>
    simp only [List.cons_append, sconcat_cons, ih]
    exact (strAppend_assoc _ _ _).symm

theorem ccat_cons (x : String) (l : List String) :
    ccat (x :: l) = "," ++ x ++ ccat l := by
  simp only [ccat, List.map_cons, sconcat_cons]

theorem ccat_append (l1 l2 : List String) :
    ccat (l1 ++ l2) = ccat l1 ++ ccat l2 := by
  simp only [ccat, List.map_append, sconcat_append]

theorem ccat_nil : ccat [] = "" := rfl

theorem ccat_singleton (x : String) : ccat [x] = "," ++ x := by
  simp only [ccat, List.map_cons, List.map_nil, sconcat_cons]
  show "," ++ x ++ "" = "," ++ x
  exact strAppend_empty _

theorem joinComma_cons :
    ∀ (l : List String) (x : String), joinComma (x :: l) = x ++ ccat l := by
  intro l
  induction l with
  | nil => intro x; simp [joinComma, ccat_nil, strAppend_empty]
  | cons y ys ih =>
    intro x
    show x ++ "," ++ joinComma (y :: ys) = x ++ ccat (y :: ys)
    rw [ih y, ccat_cons, strAppend_assoc]
    rw [← strAppend_assoc "," y (ccat ys)]

/-- C1: when console synchronization is enabled, every logging call first
waits for the banner-done flag; `log` and `logModule` then hold the
process-wide console mutex for the physical write, but `logf` releases the
mutex at the end of the inner guard scope before its physical write, so
the claimed lock-held write fails for `logf`. -/
theorem logf_write_not_under_console_lock :
    waitPrecedesWrites (logActs true) = true ∧
    waitPrecedesWrites (logModuleActs true) = true ∧
    waitPrecedesWrites (logfActs true) = true ∧
    writesUnderConsoleLock (logActs true) = true ∧
    writesUnderConsoleLock (logModuleActs true) = true ∧
    writesUnderConsoleLock (logfActs true) = false := by
  decide

/-- C2 counterexample: at configured level Info and record level Off, the
configured level is not Off and the record rank is at least the configured
rank, yet the call produces no output — the claimed iff fails. -/
theorem level_filter_claim_fails_at_off_record :
    Level.info ≠ Level.off ∧
    spdRank Level.info ≤ spdRank Level.off ∧
    logEmits Level.info Level.off = false := by
  decide

/-- C2 (amended): a logging call produces output iff the record level is
not Off and its rank is at least the configured rank (which forces the
configured level below Off); configuring Off suppresses every call
including Critical, and record level Off never produces output. -/
theorem level_filter_iff :
    (∀ cfg lvl : Level,
        logEmits cfg lvl = true ↔ lvl ≠ Level.off ∧ spdRank cfg ≤ spdRank lvl) ∧
    (∀ cfg lvl : Level, logEmits cfg lvl = true → cfg ≠ Level.off) ∧
    (∀ lvl : Level, logEmits Level.off lvl = false) ∧
    logEmits Level.off Level.critical = false ∧
    (∀ cfg : Level, logEmits cfg Level.off = false) := by
  decide

/-- Witness for the amended C2 statement at a concrete configuration. -/
theorem level_filter_iff_witness : (Level.info : Level) ≠ Level.off :=
  level_filter_iff.2.1 Level.info Level.warn (by decide)

/-- C4: with color enabled the pretty-JSON trailing `,\n` is wrapped in
ANSI codes, so the trailing-comma removal does not fire; the stripped
colored output keeps a comma before the closing brace that the
color-disabled output does not have, while the colored output does end
with an ANSI reset sequence. -/
theorem pretty_color_keeps_trailing_comma :
    stripAnsi (buildJsonPretty true Level.info "m" defaultContext []) =
      "\x7b\n  \"level\": \"info\",\n  \"msg\": \"m\",\n\x7d" ∧
    buildJsonPretty false Level.info "m" defaultContext [] =
      "\x7b\n  \"level\": \"info\",\n  \"msg\": \"m\"\n\x7d" ∧
    stripAnsi (buildJsonPretty true Level.info "m" defaultContext []) ≠
      buildJsonPretty false Level.info "m" defaultContext [] ∧
    ends_with (buildJsonPretty true Level.info "m" defaultContext []) "\x1b[0m" = true := by
  refine ⟨by decide, by decide, by decide, by decide⟩

/-- C5: the level parser maps trace, debug, info, warn, error, critical
and fatal (as critical), case-insensitively, to their levels, maps off,
never, none, silent and 0 to Off, and everything else to Warn; the format
parser maps json to JSON, json_pretty, json-pretty and pretty-json to
JSON_PRETTY, and everything else to KV. -/
theorem parse_level_format_as_specified :
    (∀ s : String, parseLevel s = parseLevelClaim s) ∧
    (∀ s : String, parseFormat s = parseFormatClaim s) ∧
    parseFormat "json_pretty" = Format.JSON_PRETTY ∧
    parseFormat "bogus" = Format.KV := by
  refine ⟨?_, ?_, by decide, by decide⟩
  · intro s
    simp only [parseLevel, parseLevelClaim]
    split_ifs <;> simp_all
  · intro s
    simp only [parseFormat, parseFormatClaim]
    split_ifs <;> simp_all

/-- C6: `throwError` performs the ordinary ERROR-level logging call on the
formatted message and then raises an error carrying that same message; the
outcome is never a normal return, and whenever the ERROR level passes the
filter the record is appended to the output before the error propagates. -/
theorem throwError_logs_then_raises :
    (∀ (cfg : Level) (msg : String) (out : List Record),
        (throwErrorCall cfg msg out).2 = Except.error msg) ∧
    (∀ (cfg : Level) (msg : String) (out : List Record),
        logEmits cfg Level.error = true →
        (throwErrorCall cfg msg out).1 = out ++ [(Level.error, msg)]) ∧
    (∀ (cfg : Level) (msg : String) (out : List Record) (u : Unit),
        (throwErrorCall cfg msg out).2 ≠ Except.ok u) := by
  refine ⟨fun _ _ _ => rfl, ?_, fun _ _ _ _ h => by simp [throwErrorCall] at h⟩
  intro cfg msg out h
  simp [throwErrorCall, logCall, h]

/-- Witness for C6 at a concrete call. -/
theorem throwError_logs_then_raises_witness :
    (throwErrorCall Level.info "boom" []).1 = [(Level.error, "boom")] ∧
    (throwErrorCall Level.info "boom" []).2 = Except.error "boom" :=
  ⟨by simpa using throwError_logs_then_raises.2.1 Level.info "boom" [] (by decide),
   throwError_logs_then_raises.1 Level.info "boom" []⟩

/-- C7: `setContext` replaces the calling thread slot wholesale, so a
subsequent `getContext` on that thread returns exactly the new context;
`clearContext` resets the slot to the default context; and a context set
by one thread is invisible to every other thread, which still reads its
own slot (the default one in the initial store). -/
theorem context_thread_isolation :
    (∀ (t : Nat) (c : Context) (m : TLS), getContext t (setContext t c m) = c) ∧
    (∀ (t : Nat) (m : TLS), getContext t (clearContext t m) = defaultContext) ∧
    (∀ (t u : Nat) (c : Context) (m : TLS), u ≠ t →
        getContext u (setContext t c m) = getContext u m) ∧
    (∀ (t u : Nat) (c : Context), u ≠ t →
        getContext u (setContext t c initialTLS) = defaultContext) := by
  refine ⟨?_, ?_, ?_, ?_⟩ <;>
    intros <;>
    simp [getContext, setContext, clearContext, initialTLS, *]

/-- Witness for C7: a context set by thread 0 is invisible to thread 1. -/
theorem context_thread_isolation_witness :
    getContext 1 (setContext 0 ⟨"r-1", "auth", []⟩ initialTLS) = defaultContext :=
  context_thread_isolation.2.2.2 0 1 ⟨"r-1", "auth", []⟩ (by decide)

theorem bannerRun_no_reset :
    ∀ ops : List BannerOp, BannerOp.reset ∉ ops → bannerRun true ops = true := by
  intro ops
  induction ops with
  | nil => intro _; rfl
  | cons e rest ih =>
    intro h
    cases e with
    | reset => exact absurd (List.mem_cons_self _ _) h
    | mark =>
      have hr : BannerOp.reset ∉ rest := fun hm => h (List.mem_cons_of_mem _ hm)
      simpa [bannerRun, bannerStep] using ih hr

theorem bannerRun_no_mark :
    ∀ ops : List BannerOp, BannerOp.mark ∉ ops → bannerRun false ops = false := by
  intro ops
  induction ops with
  | nil => intro _; rfl
  | cons e rest ih =>
    intro h
    cases e with
    | mark => exact absurd (List.mem_cons_self _ _) h
    | reset =>
      have hr : BannerOp.mark ∉ rest := fun hm => h (List.mem_cons_of_mem _ hm)
      simpa [bannerRun, bannerStep] using ih hr

/-- C8: the banner-done flag starts true and stays true through any
sequence of banner operations containing no reset, so the wait predicate
holds and `waitForBanner` returns immediately; a reset makes the flag
false and waiters stay blocked through any sequence without a mark, while
a mark makes the flag true again, unblocking every waiter at once. -/
theorem banner_flag_lifecycle :
    bannerInit = true ∧
    (∀ ops : List BannerOp, BannerOp.reset ∉ ops →
        waitProceeds (bannerRun bannerInit ops) = true) ∧
    (∀ b : Bool, bannerStep b BannerOp.reset = false) ∧
    (∀ ops : List BannerOp, BannerOp.mark ∉ ops →
        waitProceeds (bannerRun false ops) = false) ∧
    (∀ b : Bool, waitProceeds (bannerStep b BannerOp.mark) = true) := by
  refine ⟨rfl, ?_, fun b => rfl, ?_, fun b => rfl⟩
  · intro ops h
    simpa [waitProceeds, bannerInit] using bannerRun_no_reset ops h
  · intro ops h
    simpa [waitProceeds] using bannerRun_no_mark ops h

/-- Witness for C8 on concrete operation sequences. -/
theorem banner_flag_lifecycle_witness :
    waitProceeds (bannerRun bannerInit [BannerOp.mark]) = true ∧
    waitProceeds (bannerRun false [BannerOp.reset]) = false :=
  ⟨banner_flag_lifecycle.2.1 [BannerOp.mark] (by decide),
   banner_flag_lifecycle.2.2.2.1 [BannerOp.reset] (by decide)⟩

/-- C9: the encoders are deterministic — encoding equal records with color
disabled yields byte-identical strings in KV, JSON and pretty JSON alike. -/
theorem encoding_deterministic :
    ∀ (f1 f2 : Format) (l1 l2 : Level) (m1 m2 : String) (c1 c2 : Context)
      (k1 k2 : List (String × JVal)),
      f1 = f2 → l1 = l2 → m1 = m2 → c1 = c2 → k1 = k2 →
      encodeRecord f1 l1 m1 c1 k1 = encodeRecord f2 l2 m2 c2 k2 := by
  intro f1 f2 l1 l2 m1 m2 c1 c2 k1 k2 hf hl hm hc hk
  rw [hf, hl, hm, hc, hk]

/-- Witness for C9 at one concrete record in each format. -/
theorem encoding_deterministic_witness :
    encodeRecord Format.JSON Level.info "m" defaultContext [("user", JVal.vstr "ada")] =
      encodeRecord Format.JSON Level.info "m" defaultContext [("user", JVal.vstr "ada")] :=
  encoding_deterministic Format.JSON Format.JSON Level.info Level.info "m" "m"
    defaultContext defaultContext [("user", JVal.vstr "ada")] [("user", JVal.vstr "ada")]
    rfl rfl rfl rfl rfl

/-- C10: with the environment variable unset or empty, `setLevelFromEnv`
installs Info (not the Warn default written into the helper signature);
with a non-empty value it installs the parse of that value. -/
theorem setLevelFromEnv_defaults_to_info :
    setLevelFromEnv none = Level.info ∧
    setLevelFromEnv (some "") = Level.info ∧
    parseLevelFromEnvDefaultFallback = Level.warn ∧
    Level.info ≠ Level.warn ∧
    (∀ v : String, v ≠ "" → setLevelFromEnv (some v) = parseLevel v) := by
  refine ⟨rfl, rfl, rfl, by decide, ?_⟩
  intro v hv
  simp [setLevelFromEnv, parseLevelFromEnv, hv]

/-- Witness for C10 on a concrete non-empty value. -/
theorem setLevelFromEnv_defaults_to_info_witness :
    setLevelFromEnv (some "trace") = parseLevel "trace" :=
  setLevelFromEnv_defaults_to_info.2.2.2.2 "trace" (by decide)

theorem comma_member_eq_kvItem (k : String) (v : JVal) :
    "," ++ jsonMemberSpec k v = jsonKVItem (k, v) := by
  cases v <;>
    simp [jsonMemberSpec, jsonKVItem, jsonValSpec, appendJsonKey, appendJsonValue,
      appendJsonStringValue, strAppend_assoc]

theorem ccat_map_ctx (l : List (String × String)) :
    ccat (l.map (fun kv => jsonMemberSpec kv.1 (JVal.vstr kv.2)))
      = sconcat (l.map jsonCtxField) := by
  induction l with
  | nil => rfl
  | cons a rest ih =>
    simp only [List.map_cons, ccat_cons, sconcat_cons, ih]
    rw [comma_member_eq_kvItem]
    rfl

theorem ccat_map_kvs (l : List (String × JVal)) :
    ccat (l.map (fun kv => jsonMemberSpec kv.1 kv.2)) = sconcat (l.map jsonKVItem) := by
  induction l with
  | nil => rfl
  | cons a rest ih =>
    simp only [List.map_cons, ccat_cons, sconcat_cons, ih]
    rw [comma_member_eq_kvItem]

/-- C3: in JSON format the record is a single-line object whose members
appear in the order level, msg, rid when the request id is non-empty, mod
when the module is non-empty, the context fields, then the kv pairs; keys
and string values are JSON-escaped and quoted, numeric and boolean values
are unquoted primitives, other values fall back to a quoted textual
rendering. The source encoder agrees with the spec-described object on
every input, and on the scenario record it yields the expected line. -/
theorem buildJsonLine_matches_spec :
    (∀ (lvl : Level) (msg : String) (c : Context) (kvs : List (String × JVal)),
        buildJsonLine lvl msg c kvs = jsonLineSpec lvl msg c kvs) ∧
    buildJsonLine Level.info "Login ok" ⟨"r-1", "auth", []⟩
        [("user", JVal.vstr "ada"), ("latency_ms", JVal.vint 12)] =
      "\x7b\"level\":\"info\",\"msg\":\"Login ok\",\"rid\":\"r-1\",\"mod\":\"auth\",\"user\":\"ada\",\"latency_ms\":12\x7d" := by
  refine ⟨?_, by decide⟩
  intro lvl msg c kvs
  simp only [buildJsonLine, jsonLineSpec, jsonLineSpecEntries]
  rw [foldl_chunks, foldl_chunks, joinComma_cons, ccat_cons, ccat_append, ccat_append,
    ccat_append, ccat_map_ctx, ccat_map_kvs]
  by_cases hr : c.request_id = "" <;> by_cases hm : c.module = "" <;>
    · apply string_data_inj
      simp [hr, hm, jsonMemberSpec, jsonCtxField, jsonKVItem, jsonValSpec, appendJsonKey,
        appendJsonValue, appendJsonStringValue, ccat_nil, ccat_singleton,
        string_data_append, List.append_assoc, strEmpty_append, strAppend_empty]

end Vix
